import Mathlib

/-!
Verification of the expense-ledger core implemented in src/main.py.

The embedding models the three MCP tool handlers (add_expense, list_expenses,
summarize), the date validator built on datetime.strptime, and the SQLite
expenses table.  The table is modelled as a list of records plus the next
AUTOINCREMENT id; SQL text comparison (memcmp on the stored strings) is
modelled as lexicographic comparison of character lists; SQLite ORDER BY is
modelled as a sort by the corresponding key; Python floats are idealised as
rationals, except where IEEE NaN behaviour is itself at issue, where a
dedicated two-constructor type is used.
-/

/-- Lexicographic comparison of character lists by code point, the order
SQLite's memcmp-based TEXT comparison induces on the ASCII date strings
stored by the program (used by `date BETWEEN ? AND ?` and `ORDER BY date`). -/
def lexLe : List Char → List Char → Bool
  | [], _ => true
  | _ :: _, [] => false
  | a :: as, b :: bs =>
    if a.toNat < b.toNat then true
    else if b.toNat < a.toNat then false
    else lexLe as bs

/-- Decimal digit test, as matched by the `\d` fields of the strptime regex
for ASCII input. -/
def isDig (c : Char) : Bool := 48 ≤ c.toNat && c.toNat ≤ 57

/-- Numeric value of a decimal digit character. -/
def digitVal (c : Char) : Nat := c.toNat - 48

/-- The decimal digit character for a value below ten. -/
def digitChar (n : Nat) : Char := Char.ofNat (48 + n)

/-- Gregorian leap-year rule, as implemented by Python's datetime. -/
def isLeap (y : Nat) : Bool := y % 4 == 0 && (y % 100 != 0 || y % 400 == 0)

/-- Number of days in a month, as enforced by the datetime constructor. -/
def daysInMonth (y m : Nat) : Nat :=
  if m == 2 then (if isLeap y then 29 else 28)
  else if m == 4 || m == 6 || m == 9 || m == 11 then 30
  else 31

/-- Range checks performed by the datetime constructor after the strptime
regex has matched: year at least 1 (datetime.MINYEAR), month 1..12, day
within the month.  A 4-digit year is at most 9999 (datetime.MAXYEAR). -/
def calOk (y m d : Nat) : Bool :=
  1 ≤ y && 1 ≤ m && m ≤ 12 && 1 ≤ d && d ≤ daysInMonth y m

/-- Day field of strptime("%Y-%m-%d"): the regex fragment
(3[0-1]|[1-2]\d|0[1-9]|[1-9]| [1-9]) admits one digit 1-9, two digits with
value 1..31, or a space followed by a digit 1-9 (the ctime-style
space-padded day), followed by the end of the string; the value is then
checked against the calendar by the datetime constructor. -/
def parseDay (y m : Nat) : List Char → Bool
  | [d1] => isDig d1 && decide (d1 ≠ '0') && calOk y m (digitVal d1)
  | [d1, d2] =>
    if d1 = ' ' then
      isDig d2 && decide (d2 ≠ '0') && calOk y m (digitVal d2)
    else
      isDig d1 && isDig d2 &&
        (let d := 10 * digitVal d1 + digitVal d2
         decide (1 ≤ d) && decide (d ≤ 31) && calOk y m d)
  | _ => false

/-- Month field of strptime("%Y-%m-%d"): the regex fragment
(1[0-2]|0[1-9]|[1-9]) admits one digit 1-9 or two digits with value 1..12,
and must be followed by the literal dash separating it from the day. -/
def parseMD (y : Nat) : List Char → Bool
  | m1 :: c2 :: rest =>
    if c2 = '-' then
      isDig m1 && decide (m1 ≠ '0') && parseDay y (digitVal m1) rest
    else
      match rest with
      | c3 :: rest2 =>
        if c3 = '-' then
          isDig m1 && isDig c2 &&
            (let m := 10 * digitVal m1 + digitVal c2
             decide (1 ≤ m) && decide (m ≤ 12) && parseDay y m rest2)
        else false
      | [] => false
  | _ => false

/-- Acceptance of datetime.strptime(s, "%Y-%m-%d"): exactly four digits of
year, a dash, the month field, a dash, the day field, and nothing after
(strptime raises on unconverted trailing data). -/
def dateOk : List Char → Bool
  | c1 :: c2 :: c3 :: c4 :: c5 :: rest =>
    isDig c1 && isDig c2 && isDig c3 && isDig c4 && decide (c5 = '-') &&
      parseMD (1000 * digitVal c1 + 100 * digitVal c2 + 10 * digitVal c3 + digitVal c4) rest
  | _ => false

/-- Error message of validate_date (src/main.py line 41). -/
def dateErrorMsg : String := "Date must be in YYYY-MM-DD format (e.g., 2024-01-15)"

/-- Model of validate_date (src/main.py lines 35-41): try
datetime.strptime(date_str, "%Y-%m-%d"); on success return (True, ""), on
ValueError return (False, message). -/
def validate_date (s : String) : Bool × String :=
  if dateOk s.data then (true, "") else (false, dateErrorMsg)

/-- An expense row of the SQLite table (src/main.py lines 19-28).  REAL
amounts are idealised as rationals. -/
structure Record where
  id : Nat
  date : String
  amount : ℚ
  category : String
  subcategory : Option String
  note : Option String
deriving DecidableEq

/-- The expenses table: persisted rows plus the next AUTOINCREMENT id. -/
structure Store where
  rows : List Record
  nextId : Nat
deriving DecidableEq

/-- The freshly initialised empty table (AUTOINCREMENT starts at 1). -/
def Store.empty : Store := ⟨[], 1⟩

/-- The fixed category list (src/main.py lines 74-75 and the categories
resource). -/
def validCategories : List String :=
  ["Food", "Travel", "Transport", "Shopping", "Bills",
   "Healthcare", "Education", "Business", "Other"]

/-- Error message for an invalid category (src/main.py line 79). -/
def categoryErrorMsg : String :=
  "Invalid category. Must be one of: " ++ String.intercalate ", " validCategories

/-- Result dict of add_expense: either status="success" with id and message,
or status="error" with message. -/
inductive AddResult where
  | success (id : Nat) (message : String)
  | error (message : String)
deriving DecidableEq

/-- Result dict of list_expenses. -/
inductive ListResult where
  | success (count : Nat) (expenses : List Record)
  | error (message : String)
deriving DecidableEq

/-- One row of the summarize output: category, SUM(amount), COUNT(*). -/
structure CatSummary where
  category : String
  total_amount : ℚ
  count : Nat
deriving DecidableEq

/-- Result dict of summarize. -/
inductive SummarizeResult where
  | success (period : String) (total_amount : ℚ) (summary : List CatSummary)
  | error (message : String)
deriving DecidableEq

def ListResult.isSuccess : ListResult → Bool
  | .success _ _ => true
  | .error _ => false

def ListResult.count : ListResult → Nat
  | .success c _ => c
  | .error _ => 0

def ListResult.expenses : ListResult → List Record
  | .success _ es => es
  | .error _ => []

def SummarizeResult.isSuccess : SummarizeResult → Bool
  | .success _ _ _ => true
  | .error _ => false

def SummarizeResult.period : SummarizeResult → String
  | .success p _ _ => p
  | .error _ => ""

def SummarizeResult.total_amount : SummarizeResult → ℚ
  | .success _ t _ => t
  | .error _ => 0

def SummarizeResult.summary : SummarizeResult → List CatSummary
  | .success _ _ s => s
  | .error _ => []

/-- Floor of a rational, computed from numerator and denominator. -/
def ratFloor (q : ℚ) : ℤ := Int.fdiv q.num q.den

/-- Round to the nearest integer, ties to even, the rounding Python's float
formatting applies to the (idealised) value. -/
def roundHalfEven (q : ℚ) : ℤ :=
  let f := ratFloor q
  if q - (f : ℚ) < 1 / 2 then f
  else if (1 : ℚ) / 2 < q - (f : ℚ) then f + 1
  else if f % 2 = 0 then f else f + 1

/-- Value in cents of a nonnegative amount, rounded half-to-even. -/
def cents (q : ℚ) : ℕ := (roundHalfEven (q * 100)).toNat

/-- Zero-padding of the cent part to width two. -/
def pad2 (n : ℕ) : String := if n < 10 then "0" ++ toString n else toString n

/-- Model of the Python format specifier ".2f" on an idealised float: render
with exactly two digits after the decimal point, rounding half to even. -/
def fmt2 (q : ℚ) : String :=
  if q < 0 then "-" ++ (toString (cents (-q) / 100) ++ "." ++ pad2 (cents (-q) % 100))
  else toString (cents q / 100) ++ "." ++ pad2 (cents q % 100)

/-- Model of add_expense (src/main.py lines 47-96): validate date, amount,
category in that order, returning the first validator's error without
touching the store; on success insert the row and return the generated id
and the confirmation message. -/
def add_expense (date : String) (amount : ℚ) (category : String)
    (subcategory : Option String) (note : Option String) (store : Store) :
    AddResult × Store :=
  if (validate_date date).1 = false then
    (AddResult.error (validate_date date).2, store)
  else if amount ≤ 0 then
    (AddResult.error "Amount must be a positive number", store)
  else if category ∉ validCategories then
    (AddResult.error categoryErrorMsg, store)
  else
    (AddResult.success store.nextId
      ("Added expense: " ++ category ++ " - $" ++ fmt2 amount ++ " on " ++ date),
     ⟨store.rows ++ [⟨store.nextId, date, amount, category, subcategory, note⟩],
      store.nextId + 1⟩)

/-- The WHERE clause `date BETWEEN ? AND ?` of list_expenses: inclusive text
comparison against both bounds. -/
def dateInRange (s e : String) (r : Record) : Bool :=
  lexLe s.data r.date.data && lexLe r.date.data e.data

/-- Ordering relation of `ORDER BY date DESC`. -/
def dateDescLe (a b : Record) : Prop := lexLe b.date.data a.date.data = true

instance : DecidableRel dateDescLe := fun _ _ => instDecidableEqBool _ _

/-- Model of `ORDER BY date DESC` on the result set. -/
def sortByDateDesc (l : List Record) : List Record := List.insertionSort dateDescLe l

/-- Model of list_expenses (src/main.py lines 100-140): validate both dates,
then return the rows whose date lies in the inclusive range, ordered by date
descending, together with their number. -/
def list_expenses (start_date end_date : String) (store : Store) : ListResult :=
  if (validate_date start_date).1 = false then
    ListResult.error ("Invalid start_date: " ++ (validate_date start_date).2)
  else if (validate_date end_date).1 = false then
    ListResult.error ("Invalid end_date: " ++ (validate_date end_date).2)
  else
    let rows := sortByDateDesc (store.rows.filter (dateInRange start_date end_date))
    ListResult.success rows.length rows

/-- The optional category filter of summarize: Python `if category:` treats
None and the empty string as absent; otherwise `AND category = ?`. -/
def categoryFilterMatches (cat : Option String) (r : Record) : Bool :=
  match cat with
  | none => true
  | some c => if c = "" then true else r.category == c

/-- Ordering relation of `ORDER BY total_amount DESC`. -/
def totalDescLe (a b : CatSummary) : Prop := b.total_amount ≤ a.total_amount

instance : DecidableRel totalDescLe := fun a b =>
  inferInstanceAs (Decidable (b.total_amount ≤ a.total_amount))

/-- Model of `ORDER BY total_amount DESC` on the grouped rows. -/
def sortByTotalDesc (l : List CatSummary) : List CatSummary :=
  List.insertionSort totalDescLe l

/-- The rows summarize aggregates over: date range plus optional category
equality filter (the WHERE clause built in src/main.py lines 166-176). -/
def summarizeRows (start_date end_date : String) (cat : Option String)
    (store : Store) : List Record :=
  store.rows.filter (fun r =>
    dateInRange start_date end_date r && categoryFilterMatches cat r)

/-- The `GROUP BY category` step of summarize: one row per distinct category
of the matching records, carrying SUM(amount) and COUNT(*). -/
def summaryGroups (rows : List Record) : List CatSummary :=
  ((rows.map Record.category).dedup).map (fun c =>
    ⟨c, ((rows.filter (fun r => r.category == c)).map Record.amount).sum,
        (rows.filter (fun r => r.category == c)).length⟩)

/-- Model of summarize (src/main.py lines 144-194): validate both dates,
group the matching rows by category computing SUM(amount) and COUNT(*),
order groups by total descending, and return the period string, the Python
sum of the per-group totals, and the groups. -/
def summarize (start_date end_date : String) (cat : Option String)
    (store : Store) : SummarizeResult :=
  if (validate_date start_date).1 = false then
    SummarizeResult.error ("Invalid start_date: " ++ (validate_date start_date).2)
  else if (validate_date end_date).1 = false then
    SummarizeResult.error ("Invalid end_date: " ++ (validate_date end_date).2)
  else
    let summary := sortByTotalDesc (summaryGroups (summarizeRows start_date end_date cat store))
    SummarizeResult.success (start_date ++ " to " ++ end_date)
      ((summary.map CatSummary.total_amount).sum) summary

/-- Stores reachable from the freshly initialised table by any sequence of
add_expense calls (the only operation that writes). -/
inductive Reachable : Store → Prop where
  | empty : Reachable Store.empty
  | step (date : String) (amount : ℚ) (category : String)
      (subcategory note : Option String) (s : Store) :
      Reachable s → Reachable (add_expense date amount category subcategory note s).2

/-- A Python float as seen by the amount check of add_expense: a finite
value (idealised as a rational) or IEEE NaN. -/
inductive PyFloat where
  | num (val : ℚ)
  | nan
deriving DecidableEq

/-- The guard `amount <= 0` of src/main.py line 70 under IEEE-754 comparison
semantics: any comparison with NaN is false. -/
def PyFloat.leZero : PyFloat → Bool
  | num q => decide (q ≤ 0)
  | nan => false

/-- Property of a rendered number string: it ends in a dot followed by
exactly two decimal digits. -/
def hasTwoDecimals (s : String) : Prop :=
  ∃ ip fr, s = ip ++ "." ++ fr ∧ fr.length = 2 ∧ ∀ c ∈ fr.data, isDig c = true

/-- A store with two valid records, used to exercise the theorems on
concrete input. -/
def sampleStore : Store :=
  ⟨[⟨1, "2024-01-05", 5, "Food", none, none⟩,
    ⟨2, "2024-01-20", 20, "Travel", none, none⟩], 3⟩

/-- Spec-side rendering of a year as exactly four decimal digits, as the
`\d\d\d\d` field of the strptime format requires. -/
def yearChars (y : Nat) : List Char :=
  [digitChar (y / 1000 % 10), digitChar (y / 100 % 10),
   digitChar (y / 10 % 10), digitChar (y % 10)]

/-- Spec-side month field spellings strptime accepts: the bare digit for
months below ten, and the two-digit (zero-padded) form. -/
def monthForms (m : Nat) : List (List Char) :=
  (if m ≤ 9 then [[digitChar m]] else []) ++ [[digitChar (m / 10), digitChar (m % 10)]]

/-- Spec-side day field spellings strptime accepts: for days below ten the
bare digit and the space-padded two-character form, and for every day the
two-digit (zero-padded) form. -/
def dayForms (d : Nat) : List (List Char) :=
  (if d ≤ 9 then [[digitChar d], [' ', digitChar d]] else [])
    ++ [[digitChar (d / 10), digitChar (d % 10)]]

/-- Spec-side characterisation of the strings validate_date accepts (the
amended form of the spec's description of the validator): a four-digit
year, a dash, a one- or two-digit month, a dash, and a day written as one
digit, two digits, or a space followed by one digit, denoting a valid
proleptic Gregorian calendar date with year at least one; field widths of
month and day are NOT restricted to two. -/
def dateSpecAccepts (s : String) : Prop :=
  ∃ y m d ms ds,
    1 ≤ y ∧ y ≤ 9999 ∧ 1 ≤ m ∧ m ≤ 12 ∧ 1 ≤ d ∧ d ≤ daysInMonth y m
    ∧ ms ∈ monthForms m ∧ ds ∈ dayForms d
    ∧ s.data = yearChars y ++ '-' :: (ms ++ '-' :: ds)

/-! Basic properties of the lexicographic comparison. -/

theorem lexLe_refl (l : List Char) : lexLe l l = true := by
  induction l with
  | nil => rfl
  | cons a as ih => simp [lexLe, ih]

theorem lexLe_total (a b : List Char) : lexLe a b = true ∨ lexLe b a = true := by
  induction a generalizing b with
  | nil => left; rfl
  | cons x xs ih =>
    cases b with
    | nil => right; rfl
    | cons y ys =>
      by_cases h1 : x.toNat < y.toNat
      · left; simp [lexLe, h1]
      · by_cases h2 : y.toNat < x.toNat
        · right; simp [lexLe, h2]
        · rcases ih ys with h | h
          · left; simp [lexLe, h1, h2, h]
          · right; simp [lexLe, h1, h2, h]

theorem lexLe_trans {a b c : List Char} (h1 : lexLe a b = true)
    (h2 : lexLe b c = true) : lexLe a c = true := by
  induction a generalizing b c with
  | nil => rfl
  | cons x xs ih =>
    cases b with
    | nil => simp [lexLe] at h1
    | cons y ys =>
      cases c with
      | nil => simp [lexLe] at h2
      | cons z zs =>
        simp only [lexLe] at h1 h2 ⊢
        split_ifs at h1 h2 ⊢ <;> try rfl
        all_goals try omega
        all_goals exact ih h1 h2

/-! Sortedness and permutation facts for the two ORDER BY models. -/

theorem sortByDateDesc_perm (l : List Record) : (sortByDateDesc l).Perm l :=
  List.perm_insertionSort _ l

theorem sortByDateDesc_sorted (l : List Record) :
    List.Sorted dateDescLe (sortByDateDesc l) := by
  haveI : IsTotal Record dateDescLe := ⟨fun a b => lexLe_total b.date.data a.date.data⟩
  haveI : IsTrans Record dateDescLe := ⟨fun _ _ _ hab hbc => lexLe_trans hbc hab⟩
  exact List.sorted_insertionSort _ l

theorem sortByTotalDesc_perm (l : List CatSummary) : (sortByTotalDesc l).Perm l :=
  List.perm_insertionSort _ l

theorem sortByTotalDesc_sorted (l : List CatSummary) :
    List.Sorted totalDescLe (sortByTotalDesc l) := by
  haveI : IsTotal CatSummary totalDescLe := ⟨fun a b => le_total b.total_amount a.total_amount⟩
  haveI : IsTrans CatSummary totalDescLe := ⟨fun _ _ _ h1 h2 => le_trans h2 h1⟩
  exact List.sorted_insertionSort _ l

/-! Facts about the date validator's result pair. -/

theorem validate_date_fst (s : String) : (validate_date s).1 = dateOk s.data := by
  unfold validate_date
  split <;> simp_all

theorem validate_date_invalid_snd {s : String} (h : (validate_date s).1 = false) :
    (validate_date s).2 = dateErrorMsg := by
  unfold validate_date at *
  split at h <;> simp_all

/-! Splitting a mapped sum along a Boolean filter, and summing a partition
of a list into category groups. -/

theorem sum_filter_split {α : Type} (f : α → ℚ) (p : α → Bool) (l : List α) :
    ((l.filter p).map f).sum + ((l.filter fun a => !(p a)).map f).sum
      = (l.map f).sum := by
  induction l with
  | nil => simp
  | cons a l ih =>
    cases hpa : p a
    · simp only [List.filter_cons, hpa, Bool.not_false, if_true, if_false,
        Bool.false_eq_true, ite_false, ite_true, List.map_cons, List.sum_cons]
      rw [← ih]; ring
    · simp only [List.filter_cons, hpa, Bool.not_true, if_true, if_false,
        Bool.false_eq_true, ite_false, ite_true, List.map_cons, List.sum_cons]
      rw [← ih]; ring

theorem grouped_sum {α : Type} (f : α → ℚ) (key : α → String) :
    ∀ cs : List String, cs.Nodup → ∀ l : List α, (∀ a ∈ l, key a ∈ cs) →
      (cs.map fun c => ((l.filter fun a => key a == c).map f).sum).sum
        = (l.map f).sum := by
  intro cs
  induction cs with
  | nil =>
    intro _ l hcov
    have : l = [] := by
      cases l with
      | nil => rfl
      | cons a l => exact absurd (hcov a (by simp)) (by simp)
    simp [this]
  | cons c cs ih =>
    intro hnd l hcov
    have hc : c ∉ cs := (List.nodup_cons.mp hnd).1
    have hnd' : cs.Nodup := (List.nodup_cons.mp hnd).2
    rw [← sum_filter_split f (fun a => key a == c) l]
    simp only [List.map_cons, List.sum_cons]
    congr 1
    have hcov' : ∀ a ∈ l.filter fun a => !(key a == c), key a ∈ cs := by
      intro a ha
      rcases List.mem_filter.mp ha with ⟨hal, hne⟩
      rcases List.mem_cons.mp (hcov a hal) with h | h
      · simp [h] at hne
      · exact h
    rw [← ih hnd' _ hcov']
    refine congrArg List.sum (List.map_congr_left ?_)
    intro c' hc'
    have hfil : List.filter (fun a => key a == c')
        (List.filter (fun a => !(key a == c)) l)
        = List.filter (fun a => key a == c') l := by
      rw [List.filter_filter]
      apply List.filter_congr
      intro a _
      cases hkc' : key a == c'
      · simp
      · have hk : key a = c' := by simpa using hkc'
        have hnc : (key a == c) = false := by
          rw [beq_eq_false_iff_ne, hk]
          intro hcc
          exact hc (hcc ▸ hc')
        simp [hnc]
    rw [hfil]

/-! The cent rendering always has width two. -/

theorem pad2_spec : ∀ n, n < 100 →
    (pad2 n).length = 2 ∧ ∀ c ∈ (pad2 n).data, isDig c = true := by decide

theorem fmt2_hasTwoDecimals {q : ℚ} (h : 0 < q) : hasTwoDecimals (fmt2 q) := by
  have hneg : ¬(q < 0) := not_lt.mpr (le_of_lt h)
  refine ⟨toString (cents q / 100), pad2 (cents q % 100), ?_, ?_, ?_⟩
  · simp [fmt2, hneg]
  · exact (pad2_spec _ (Nat.mod_lt _ (by norm_num))).1
  · exact (pad2_spec _ (Nat.mod_lt _ (by norm_num))).2

/-! Unfolding the two query operations once both dates validate. -/

theorem list_expenses_valid (s e : String) (store : Store)
    (hs : (validate_date s).1 = true) (he : (validate_date e).1 = true) :
    list_expenses s e store =
      ListResult.success (sortByDateDesc (store.rows.filter (dateInRange s e))).length
        (sortByDateDesc (store.rows.filter (dateInRange s e))) := by
  simp [list_expenses, hs, he]

theorem summarize_valid (s e : String) (cat : Option String) (store : Store)
    (hs : (validate_date s).1 = true) (he : (validate_date e).1 = true) :
    summarize s e cat store =
      SummarizeResult.success (s ++ " to " ++ e)
        (((sortByTotalDesc (summaryGroups (summarizeRows s e cat store))).map
            CatSummary.total_amount).sum)
        (sortByTotalDesc (summaryGroups (summarizeRows s e cat store))) := by
  simp [summarize, hs, he]

/-- C1: for valid dates, list_expenses succeeds with exactly the persisted
records whose date lies in the inclusive range under lexicographic string
comparison, ordered descending by date, with count equal to the number of
returned records; an inverted range yields count zero and an empty sequence
rather than an error. -/
theorem list_expenses_range_query (s e : String) (store : Store)
    (hs : (validate_date s).1 = true) (he : (validate_date e).1 = true) :
    (list_expenses s e store).isSuccess = true
    ∧ (list_expenses s e store).count = (list_expenses s e store).expenses.length
    ∧ ((list_expenses s e store).expenses).Perm
        (store.rows.filter (dateInRange s e))
    ∧ List.Sorted dateDescLe ((list_expenses s e store).expenses)
    ∧ (lexLe s.data e.data = false →
        (list_expenses s e store).count = 0
        ∧ (list_expenses s e store).expenses = []) := by
  rw [list_expenses_valid s e store hs he]
  refine ⟨rfl, rfl, sortByDateDesc_perm _, sortByDateDesc_sorted _, ?_⟩
  intro hgt
  have hfil : store.rows.filter (dateInRange s e) = [] := by
    rw [List.filter_eq_nil_iff]
    intro r _ hd
    have h12 := (Bool.and_eq_true _ _).mp hd
    exact absurd (lexLe_trans h12.1 h12.2) (by simp [hgt])
  rw [hfil]
  exact ⟨rfl, rfl⟩

/-- Instantiation of the C1 theorem on a concrete store and range. -/
theorem list_expenses_range_query_witness :
    (list_expenses "2024-01-01" "2024-12-31" sampleStore).isSuccess = true
    ∧ (list_expenses "2024-01-01" "2024-12-31" sampleStore).count
        = (list_expenses "2024-01-01" "2024-12-31" sampleStore).expenses.length
    ∧ ((list_expenses "2024-01-01" "2024-12-31" sampleStore).expenses).Perm
        (sampleStore.rows.filter (dateInRange "2024-01-01" "2024-12-31"))
    ∧ List.Sorted dateDescLe ((list_expenses "2024-01-01" "2024-12-31" sampleStore).expenses)
    ∧ (lexLe "2024-01-01".data "2024-12-31".data = false →
        (list_expenses "2024-01-01" "2024-12-31" sampleStore).count = 0
        ∧ (list_expenses "2024-01-01" "2024-12-31" sampleStore).expenses = []) :=
  list_expenses_range_query "2024-01-01" "2024-12-31" sampleStore (by decide) (by decide)

/-- C9: in list_expenses and summarize the start date is checked first, so
when it is invalid the error names only start_date; an end_date error can
only be produced when the start date validated. -/
theorem range_error_start_first (s e : String) (cat : Option String) (store : Store) :
    ((validate_date s).1 = false →
        list_expenses s e store = ListResult.error ("Invalid start_date: " ++ dateErrorMsg)
        ∧ summarize s e cat store
            = SummarizeResult.error ("Invalid start_date: " ++ dateErrorMsg))
    ∧ (list_expenses s e store = ListResult.error ("Invalid end_date: " ++ dateErrorMsg) →
        (validate_date s).1 = true)
    ∧ (summarize s e cat store = SummarizeResult.error ("Invalid end_date: " ++ dateErrorMsg) →
        (validate_date s).1 = true) := by
  refine ⟨?_, ?_, ?_⟩
  · intro hs
    constructor
    · simp [list_expenses, hs, validate_date_invalid_snd hs]
    · simp [summarize, hs, validate_date_invalid_snd hs]
  · intro h
    cases hv : (validate_date s).1
    · rw [show list_expenses s e store
          = ListResult.error ("Invalid start_date: " ++ dateErrorMsg) by
        simp [list_expenses, hv, validate_date_invalid_snd hv]] at h
      injection h with h'
      exact absurd h' (by decide)
    · rfl
  · intro h
    cases hv : (validate_date s).1
    · rw [show summarize s e cat store
          = SummarizeResult.error ("Invalid start_date: " ++ dateErrorMsg) by
        simp [summarize, hv, validate_date_invalid_snd hv]] at h
      injection h with h'
      exact absurd h' (by decide)
    · rfl

/-- Instantiation of the C9 theorem: both dates invalid, only start_date is
reported. -/
theorem range_error_start_first_witness :
    list_expenses "2024-13-01" "2024-00-00" Store.empty
      = ListResult.error ("Invalid start_date: " ++ dateErrorMsg)
    ∧ summarize "2024-13-01" "2024-00-00" none Store.empty
      = SummarizeResult.error ("Invalid start_date: " ++ dateErrorMsg) :=
  (range_error_start_first "2024-13-01" "2024-00-00" none Store.empty).1 (by decide)

/-- C10: a valid range (with any optional category filter) matching no
persisted records yields status success, an empty summary and a total of
exactly zero. -/
theorem summarize_empty_range_zero (s e : String) (cat : Option String) (store : Store)
    (hs : (validate_date s).1 = true) (he : (validate_date e).1 = true)
    (hnone : summarizeRows s e cat store = []) :
    summarize s e cat store = SummarizeResult.success (s ++ " to " ++ e) 0 [] := by
  rw [summarize_valid s e cat store hs he, hnone]
  rfl

/-- Instantiation of the C10 theorem: a non-matching category filter on a
populated store. -/
theorem summarize_empty_range_zero_witness :
    summarize "2024-01-01" "2024-12-31" (some "Nope") sampleStore
      = SummarizeResult.success ("2024-01-01" ++ " to " ++ "2024-12-31") 0 [] :=
  summarize_empty_range_zero "2024-01-01" "2024-12-31" (some "Nope") sampleStore
    (by decide) (by decide) (by decide)

/-- C6: add_expense validates date, amount, category in that order, returns
the first failing validator's message, and leaves the store unchanged on
every validation-error path. -/
theorem add_expense_validation_order (date : String) (amount : ℚ) (category : String)
    (subcategory note : Option String) (store : Store) :
    ((validate_date date).1 = false →
        add_expense date amount category subcategory note store
          = (AddResult.error dateErrorMsg, store))
    ∧ ((validate_date date).1 = true → amount ≤ 0 →
        add_expense date amount category subcategory note store
          = (AddResult.error "Amount must be a positive number", store))
    ∧ ((validate_date date).1 = true → 0 < amount → category ∉ validCategories →
        add_expense date amount category subcategory note store
          = (AddResult.error categoryErrorMsg, store)) := by
  refine ⟨?_, ?_, ?_⟩
  · intro h
    simp [add_expense, h, validate_date_invalid_snd h]
  · intro h ha
    simp [add_expense, h, ha]
  · intro h ha hc
    simp [add_expense, h, hc, not_le.mpr ha]

/-- Instantiation of the C6 theorem: an invalid date together with an
invalid amount yields the date message, and the store is untouched. -/
theorem add_expense_validation_order_witness :
    add_expense "2024-13-01" (-5) "Groceries" none none sampleStore
      = (AddResult.error dateErrorMsg, sampleStore) :=
  (add_expense_validation_order "2024-13-01" (-5) "Groceries" none none sampleStore).1
    (by decide)

/-- C8: when all three validations pass, add_expense succeeds with the
freshly generated id and the confirmation message, whose amount is rendered
with exactly two decimal places. -/
theorem add_expense_success_message (date : String) (amount : ℚ) (category : String)
    (subcategory note : Option String) (store : Store)
    (hd : (validate_date date).1 = true) (ha : 0 < amount)
    (hc : category ∈ validCategories) :
    (add_expense date amount category subcategory note store).1
      = AddResult.success store.nextId
          ("Added expense: " ++ category ++ " - $" ++ fmt2 amount ++ " on " ++ date)
    ∧ hasTwoDecimals (fmt2 amount) := by
  constructor
  · simp [add_expense, hd, hc, not_le.mpr ha]
  · exact fmt2_hasTwoDecimals ha

/-- Instantiation of the C8 theorem on a concrete insert. -/
theorem add_expense_success_message_witness :
    (add_expense "2024-01-15" 10 "Food" none none Store.empty).1
      = AddResult.success Store.empty.nextId
          ("Added expense: " ++ "Food" ++ " - $" ++ fmt2 10 ++ " on " ++ "2024-01-15")
    ∧ hasTwoDecimals (fmt2 10) :=
  add_expense_success_message "2024-01-15" 10 "Food" none none Store.empty
    (by decide) (by decide) (by decide)

/-- C3: every store reachable from the empty table by add_expense calls
contains only records with positive amount and a category from the fixed
set. -/
theorem store_invariant_reachable (s : Store) (h : Reachable s) :
    ∀ r ∈ s.rows, 0 < r.amount ∧ r.category ∈ validCategories := by
  induction h with
  | empty => intro r hr; simp [Store.empty] at hr
  | step date amount category subcategory note s _ ih =>
    intro r hr
    simp only [add_expense] at hr
    split at hr
    · exact ih r hr
    · split at hr
      · exact ih r hr
      · split at hr
        · exact ih r hr
        · next hd hle hcat =>
          rcases List.mem_append.mp hr with hmem | hmem
          · exact ih r hmem
          · have hr' : r = ⟨s.nextId, date, amount, category, subcategory, note⟩ := by
              simpa using hmem
            subst hr'
            exact ⟨not_le.mp hle, not_not.mp hcat⟩

/-- Instantiation of the C3 theorem: the record created by one successful
add_expense call satisfies the invariant. -/
theorem store_invariant_reachable_witness :
    0 < (⟨1, "2024-01-15", (10 : ℚ), "Food", none, none⟩ : Record).amount
    ∧ (⟨1, "2024-01-15", (10 : ℚ), "Food", none, none⟩ : Record).category
        ∈ validCategories :=
  store_invariant_reachable _
    (Reachable.step "2024-01-15" 10 "Food" none none Store.empty Reachable.empty)
    _ (by decide)

/-- C4 (code bug in src/main.py line 70): the guard `amount <= 0` under IEEE
comparison semantics is false for NaN, so the validation error "Amount must
be a positive number" is produced for zero and negative amounts but not for
NaN, which passes the amount validation. -/
theorem amount_guard_accepts_nan :
    PyFloat.leZero PyFloat.nan = false
    ∧ PyFloat.leZero (PyFloat.num 0) = true
    ∧ PyFloat.leZero (PyFloat.num (-5)) = true := by decide

/-- C2: for any store, valid range and optional category filter, the grand
total of summarize equals the sum of the per-category totals of its summary,
and also equals the sum of amount over exactly the records returned by
list_expenses on the same range restricted to that category. -/
theorem summarize_summation_law (s e : String) (cat : Option String) (store : Store)
    (hs : (validate_date s).1 = true) (he : (validate_date e).1 = true) :
    (summarize s e cat store).isSuccess = true
    ∧ (summarize s e cat store).total_amount
        = (((summarize s e cat store).summary).map CatSummary.total_amount).sum
    ∧ (summarize s e cat store).total_amount
        = (((list_expenses s e store).expenses.filter
            (categoryFilterMatches cat)).map Record.amount).sum := by
  rw [summarize_valid s e cat store hs he, list_expenses_valid s e store hs he]
  refine ⟨rfl, rfl, ?_⟩
  have hperm1 : ((sortByTotalDesc (summaryGroups (summarizeRows s e cat store))).map
        CatSummary.total_amount).sum
      = ((summaryGroups (summarizeRows s e cat store)).map CatSummary.total_amount).sum :=
    List.Perm.sum_eq (List.Perm.map _ (sortByTotalDesc_perm _))
  have hmm : (summaryGroups (summarizeRows s e cat store)).map CatSummary.total_amount
      = (((summarizeRows s e cat store).map Record.category).dedup).map
          (fun c => (((summarizeRows s e cat store).filter
            (fun r => r.category == c)).map Record.amount).sum) := by
    simp [summaryGroups, List.map_map]
  have hgrp := grouped_sum Record.amount Record.category
    (((summarizeRows s e cat store).map Record.category).dedup)
    (List.nodup_dedup _) (summarizeRows s e cat store)
    (fun r hr => List.mem_dedup.mpr (List.mem_map.mpr ⟨r, hr, rfl⟩))
  have hperm2 : (((sortByDateDesc (store.rows.filter (dateInRange s e))).filter
        (categoryFilterMatches cat)).map Record.amount).sum
      = (((store.rows.filter (dateInRange s e)).filter
        (categoryFilterMatches cat)).map Record.amount).sum :=
    List.Perm.sum_eq (List.Perm.map _ (List.Perm.filter _ (sortByDateDesc_perm _)))
  have hDR : (store.rows.filter (dateInRange s e)).filter (categoryFilterMatches cat)
      = summarizeRows s e cat store := by
    rw [List.filter_filter]
    apply List.filter_congr
    intro a _
    exact Bool.and_comm _ _
  simp only [SummarizeResult.total_amount, ListResult.expenses]
  rw [hperm1, hmm, hgrp, hperm2, hDR]

/-- Instantiation of the C2 theorem on a concrete store, range and filter. -/
theorem summarize_summation_law_witness :
    (summarize "2024-01-01" "2024-12-31" (some "Food") sampleStore).isSuccess = true
    ∧ (summarize "2024-01-01" "2024-12-31" (some "Food") sampleStore).total_amount
        = (((summarize "2024-01-01" "2024-12-31" (some "Food") sampleStore).summary).map
            CatSummary.total_amount).sum
    ∧ (summarize "2024-01-01" "2024-12-31" (some "Food") sampleStore).total_amount
        = (((list_expenses "2024-01-01" "2024-12-31" sampleStore).expenses.filter
            (categoryFilterMatches (some "Food"))).map Record.amount).sum :=
  summarize_summation_law "2024-01-01" "2024-12-31" (some "Food") sampleStore
    (by decide) (by decide)

/-- C7: for a valid range, summarize groups the matching records by
category with per-group sum and count, omits empty groups, orders the
groups descending by total, applies a non-empty category argument as a bare
equality pre-filter with no category-set validation, and returns an empty
summary (not an error) for a non-matching filter. -/
theorem summarize_grouping (s e : String) (cat : Option String) (store : Store)
    (hs : (validate_date s).1 = true) (he : (validate_date e).1 = true) :
    (summarize s e cat store).isSuccess = true
    ∧ (∀ g ∈ (summarize s e cat store).summary,
        g.total_amount = (((summarizeRows s e cat store).filter
            (fun r => r.category == g.category)).map Record.amount).sum
        ∧ g.count = ((summarizeRows s e cat store).filter
            (fun r => r.category == g.category)).length
        ∧ 0 < g.count)
    ∧ (∀ r ∈ summarizeRows s e cat store,
        ∃ g ∈ (summarize s e cat store).summary, g.category = r.category)
    ∧ List.Sorted totalDescLe ((summarize s e cat store).summary)
    ∧ (∀ c, cat = some c → c ≠ "" →
        (∀ r ∈ store.rows, r.category ≠ c) →
        (summarize s e cat store).summary = []) := by
  rw [summarize_valid s e cat store hs he]
  refine ⟨rfl, ?_, ?_, sortByTotalDesc_sorted _, ?_⟩
  · intro g hg
    have hg' : g ∈ summaryGroups (summarizeRows s e cat store) :=
      ((sortByTotalDesc_perm _).mem_iff).mp hg
    rcases List.mem_map.mp hg' with ⟨c, hc, rfl⟩
    refine ⟨rfl, rfl, ?_⟩
    have hc' : c ∈ (summarizeRows s e cat store).map Record.category :=
      List.mem_dedup.mp hc
    rcases List.mem_map.mp hc' with ⟨r, hr, hrc⟩
    have : r ∈ (summarizeRows s e cat store).filter (fun r => r.category == c) :=
      List.mem_filter.mpr ⟨hr, by simp [hrc]⟩
    exact List.length_pos.mpr (List.ne_nil_of_mem this)
  · intro r hr
    refine ⟨⟨r.category,
        (((summarizeRows s e cat store).filter
          (fun x => x.category == r.category)).map Record.amount).sum,
        ((summarizeRows s e cat store).filter
          (fun x => x.category == r.category)).length⟩, ?_, rfl⟩
    apply ((sortByTotalDesc_perm _).mem_iff).mpr
    apply List.mem_map.mpr
    exact ⟨r.category, List.mem_dedup.mpr (List.mem_map.mpr ⟨r, hr, rfl⟩), rfl⟩
  · intro c hcat hne hnot
    subst hcat
    have hR : summarizeRows s e (some c) store = [] := by
      rw [summarizeRows, List.filter_eq_nil_iff]
      intro r hr hcontra
      have hcm := ((Bool.and_eq_true _ _).mp hcontra).2
      rw [categoryFilterMatches, if_neg hne] at hcm
      exact hnot r hr (by simpa using hcm)
    rw [hR]
    rfl

/-- Instantiation of the C7 theorem with a non-matching category filter. -/
theorem summarize_grouping_witness :
    (summarize "2024-01-01" "2024-12-31" (some "Nope") sampleStore).isSuccess = true
    ∧ (∀ g ∈ (summarize "2024-01-01" "2024-12-31" (some "Nope") sampleStore).summary,
        g.total_amount = (((summarizeRows "2024-01-01" "2024-12-31" (some "Nope") sampleStore).filter
            (fun r => r.category == g.category)).map Record.amount).sum
        ∧ g.count = ((summarizeRows "2024-01-01" "2024-12-31" (some "Nope") sampleStore).filter
            (fun r => r.category == g.category)).length
        ∧ 0 < g.count)
    ∧ (∀ r ∈ summarizeRows "2024-01-01" "2024-12-31" (some "Nope") sampleStore,
        ∃ g ∈ (summarize "2024-01-01" "2024-12-31" (some "Nope") sampleStore).summary,
          g.category = r.category)
    ∧ List.Sorted totalDescLe
        ((summarize "2024-01-01" "2024-12-31" (some "Nope") sampleStore).summary)
    ∧ (∀ c, (some "Nope" : Option String) = some c → c ≠ "" →
        (∀ r ∈ sampleStore.rows, r.category ≠ c) →
        (summarize "2024-01-01" "2024-12-31" (some "Nope") sampleStore).summary = []) :=
  summarize_grouping "2024-01-01" "2024-12-31" (some "Nope") sampleStore
    (by decide) (by decide)

/-! Digit-character facts used to relate the strptime model to rendered
date strings. -/

theorem isDig_iff {c : Char} : isDig c = true ↔ 48 ≤ c.toNat ∧ c.toNat ≤ 57 := by
  simp [isDig, Bool.and_eq_true, decide_eq_true_iff]

theorem digitVal_le_nine {c : Char} (h : isDig c = true) : digitVal c ≤ 9 := by
  have hb := isDig_iff.mp h
  unfold digitVal
  omega

theorem isDig_digitChar {n : Nat} (h : n ≤ 9) : isDig (digitChar n) = true := by
  interval_cases n <;> decide

theorem digitVal_digitChar {n : Nat} (h : n ≤ 9) : digitVal (digitChar n) = n := by
  interval_cases n <;> decide

theorem digitChar_digitVal {c : Char} (h : isDig c = true) : digitChar (digitVal c) = c := by
  have hb := isDig_iff.mp h
  unfold digitChar digitVal
  have he : 48 + (c.toNat - 48) = c.toNat := by omega
  rw [he]
  exact Char.ofNat_toNat c

theorem digitChar_ne_dash {n : Nat} (h : n ≤ 9) : ¬(digitChar n = '-') := by
  interval_cases n <;> decide

theorem digitChar_ne_space {n : Nat} (h : n ≤ 9) : ¬(digitChar n = ' ') := by
  interval_cases n <;> decide

theorem digitChar_eq_zero_iff {n : Nat} (h : n ≤ 9) : digitChar n = '0' ↔ n = 0 := by
  interval_cases n <;> decide

theorem daysInMonth_le (y m : Nat) : daysInMonth y m ≤ 31 := by
  unfold daysInMonth
  split_ifs <;> omega

theorem calOk_iff (y m d : Nat) : calOk y m d = true ↔
    1 ≤ y ∧ 1 ≤ m ∧ m ≤ 12 ∧ 1 ≤ d ∧ d ≤ daysInMonth y m := by
  simp [calOk, Bool.and_eq_true, decide_eq_true_iff]
  tauto

theorem mem_monthForms {m : Nat} {cs : List Char} :
    cs ∈ monthForms m ↔
      ((m ≤ 9 ∧ cs = [digitChar m]) ∨ cs = [digitChar (m / 10), digitChar (m % 10)]) := by
  by_cases h : m ≤ 9 <;> simp [monthForms, h]

theorem mem_dayForms {d : Nat} {cs : List Char} :
    cs ∈ dayForms d ↔
      ((d ≤ 9 ∧ cs = [digitChar d]) ∨ (d ≤ 9 ∧ cs = [' ', digitChar d])
        ∨ cs = [digitChar (d / 10), digitChar (d % 10)]) := by
  by_cases h : d ≤ 9 <;> simp [dayForms, h]

theorem parseDay_iff (y m : Nat) (cs : List Char) :
    parseDay y m cs = true ↔ ∃ d, cs ∈ dayForms d ∧ calOk y m d = true := by
  constructor
  · intro h
    match cs with
    | [] => simp [parseDay] at h
    | [d1] =>
      obtain ⟨⟨h1, h2⟩, h3⟩ :
          (isDig d1 = true ∧ d1 ≠ '0') ∧ calOk y m (digitVal d1) = true := by
        simpa [parseDay, Bool.and_eq_true, decide_eq_true_iff] using h
      refine ⟨digitVal d1, ?_, h3⟩
      rw [mem_dayForms]
      exact Or.inl ⟨digitVal_le_nine h1, by rw [digitChar_digitVal h1]⟩
    | [d1, d2] =>
      by_cases hsp : d1 = ' '
      · subst hsp
        obtain ⟨⟨h1, h2⟩, h3⟩ :
            (isDig d2 = true ∧ d2 ≠ '0') ∧ calOk y m (digitVal d2) = true := by
          simpa [parseDay, Bool.and_eq_true, decide_eq_true_iff] using h
        refine ⟨digitVal d2, ?_, h3⟩
        rw [mem_dayForms]
        exact Or.inr (Or.inl ⟨digitVal_le_nine h1, by rw [digitChar_digitVal h1]⟩)
      · obtain ⟨⟨h1, h2⟩, h3, h4, h5⟩ :
            (isDig d1 = true ∧ isDig d2 = true)
            ∧ 1 ≤ 10 * digitVal d1 + digitVal d2
            ∧ 10 * digitVal d1 + digitVal d2 ≤ 31
            ∧ calOk y m (10 * digitVal d1 + digitVal d2) = true := by
          simpa [parseDay, hsp, Bool.and_eq_true, decide_eq_true_iff, and_assoc] using h
        refine ⟨10 * digitVal d1 + digitVal d2, ?_, h5⟩
        rw [mem_dayForms]
        right; right
        have hv1 := digitVal_le_nine h1
        have hv2 := digitVal_le_nine h2
        have e1 : (10 * digitVal d1 + digitVal d2) / 10 = digitVal d1 := by omega
        have e2 : (10 * digitVal d1 + digitVal d2) % 10 = digitVal d2 := by omega
        rw [e1, e2, digitChar_digitVal h1, digitChar_digitVal h2]
    | _ :: _ :: _ :: _ => simp [parseDay] at h
  · rintro ⟨d, hmem, hcal⟩
    obtain ⟨_, _, _, hd1, hdm⟩ := (calOk_iff _ _ _).mp hcal
    have hd31 : d ≤ 31 := le_trans hdm (daysInMonth_le _ _)
    rcases mem_dayForms.mp hmem with ⟨hd9, rfl⟩ | ⟨hd9, rfl⟩ | rfl
    · have hne : ¬(digitChar d = '0') := by
        intro h0
        have := (digitChar_eq_zero_iff hd9).mp h0
        omega
      simp [parseDay, Bool.and_eq_true, decide_eq_true_iff, isDig_digitChar hd9,
        digitVal_digitChar hd9, hne, hcal]
    · have hne : ¬(digitChar d = '0') := by
        intro h0
        have := (digitChar_eq_zero_iff hd9).mp h0
        omega
      simp [parseDay, Bool.and_eq_true, decide_eq_true_iff, isDig_digitChar hd9,
        digitVal_digitChar hd9, hne, hcal]
    · have h10 : d / 10 ≤ 9 := by omega
      have hm10 : d % 10 ≤ 9 := by omega
      have hd' : 10 * (d / 10) + d % 10 = d := by omega
      simp [parseDay, digitChar_ne_space h10, isDig_digitChar h10, isDig_digitChar hm10,
        digitVal_digitChar h10, digitVal_digitChar hm10, hd', Bool.and_eq_true,
        decide_eq_true_iff, hd1, hd31, hcal]

theorem parseMD_iff (y : Nat) (cs : List Char) :
    parseMD y cs = true ↔
      ∃ m d ms ds, ms ∈ monthForms m ∧ ds ∈ dayForms d
        ∧ cs = ms ++ '-' :: ds ∧ calOk y m d = true := by
  constructor
  · intro h
    match cs with
    | [] => simp [parseMD] at h
    | [m1] => simp [parseMD] at h
    | m1 :: c2 :: rest =>
      by_cases hc2 : c2 = '-'
      · subst hc2
        obtain ⟨⟨h1, h2⟩, h3⟩ :
            (isDig m1 = true ∧ m1 ≠ '0') ∧ parseDay y (digitVal m1) rest = true := by
          simpa [parseMD, Bool.and_eq_true, decide_eq_true_iff] using h
        rcases (parseDay_iff _ _ _).mp h3 with ⟨d, hds, hcal⟩
        refine ⟨digitVal m1, d, [m1], rest, ?_, hds, by simp, hcal⟩
        rw [mem_monthForms]
        exact Or.inl ⟨digitVal_le_nine h1, by rw [digitChar_digitVal h1]⟩
      · match rest with
        | [] => simp [parseMD, hc2] at h
        | c3 :: rest2 =>
          by_cases hc3 : c3 = '-'
          · subst hc3
            obtain ⟨⟨h1, h2⟩, h3, h4, h5⟩ :
                (isDig m1 = true ∧ isDig c2 = true)
                ∧ 1 ≤ 10 * digitVal m1 + digitVal c2
                ∧ 10 * digitVal m1 + digitVal c2 ≤ 12
                ∧ parseDay y (10 * digitVal m1 + digitVal c2) rest2 = true := by
              simpa [parseMD, hc2, Bool.and_eq_true, decide_eq_true_iff, and_assoc] using h
            rcases (parseDay_iff _ _ _).mp h5 with ⟨d, hds, hcal⟩
            refine ⟨10 * digitVal m1 + digitVal c2, d, [m1, c2], rest2, ?_, hds, by simp, hcal⟩
            rw [mem_monthForms]
            right
            have hv1 := digitVal_le_nine h1
            have hv2 := digitVal_le_nine h2
            have e1 : (10 * digitVal m1 + digitVal c2) / 10 = digitVal m1 := by omega
            have e2 : (10 * digitVal m1 + digitVal c2) % 10 = digitVal c2 := by omega
            rw [e1, e2, digitChar_digitVal h1, digitChar_digitVal h2]
          · simp [parseMD, hc2, hc3] at h
  · rintro ⟨m, d, ms, ds, hms, hds, rfl, hcal⟩
    obtain ⟨_, hm1, hm12, _, _⟩ := (calOk_iff _ _ _).mp hcal
    have hday : parseDay y m ds = true := (parseDay_iff _ _ _).mpr ⟨d, hds, hcal⟩
    rcases mem_monthForms.mp hms with ⟨hm9, rfl⟩ | rfl
    · have hne : ¬(digitChar m = '0') := by
        intro h0
        have := (digitChar_eq_zero_iff hm9).mp h0
        omega
      simp [parseMD, Bool.and_eq_true, decide_eq_true_iff, isDig_digitChar hm9,
        digitVal_digitChar hm9, hne, hday]
    · have h10 : m / 10 ≤ 9 := by omega
      have hm10 : m % 10 ≤ 9 := by omega
      have hm' : 10 * (m / 10) + m % 10 = m := by omega
      simp [parseMD, digitChar_ne_dash hm10, isDig_digitChar h10, isDig_digitChar hm10,
        digitVal_digitChar h10, digitVal_digitChar hm10, hm', Bool.and_eq_true,
        decide_eq_true_iff, hm1, hm12, hday]

theorem dateOk_iff (cs : List Char) :
    dateOk cs = true ↔
      ∃ y m d ms ds,
        1 ≤ y ∧ y ≤ 9999 ∧ 1 ≤ m ∧ m ≤ 12 ∧ 1 ≤ d ∧ d ≤ daysInMonth y m
        ∧ ms ∈ monthForms m ∧ ds ∈ dayForms d
        ∧ cs = yearChars y ++ '-' :: (ms ++ '-' :: ds) := by
  constructor
  · intro h
    match cs with
    | c1 :: c2 :: c3 :: c4 :: c5 :: rest =>
      obtain ⟨⟨h1, h2, h3, h4⟩, h5, h6⟩ :
          (isDig c1 = true ∧ isDig c2 = true ∧ isDig c3 = true ∧ isDig c4 = true)
          ∧ c5 = '-'
          ∧ parseMD (1000 * digitVal c1 + 100 * digitVal c2
              + 10 * digitVal c3 + digitVal c4) rest = true := by
        simpa [dateOk, Bool.and_eq_true, decide_eq_true_iff, and_assoc] using h
      subst h5
      rcases (parseMD_iff _ _).mp h6 with ⟨m, d, ms, ds, hms, hds, rfl, hcal⟩
      obtain ⟨hy1, hm1, hm12, hd1, hdm⟩ := (calOk_iff _ _ _).mp hcal
      have hv1 := digitVal_le_nine h1
      have hv2 := digitVal_le_nine h2
      have hv3 := digitVal_le_nine h3
      have hv4 := digitVal_le_nine h4
      refine ⟨1000 * digitVal c1 + 100 * digitVal c2 + 10 * digitVal c3 + digitVal c4,
        m, d, ms, ds, hy1, by omega, hm1, hm12, hd1, hdm, hms, hds, ?_⟩
      have e1 : (1000 * digitVal c1 + 100 * digitVal c2 + 10 * digitVal c3 + digitVal c4)
          / 1000 % 10 = digitVal c1 := by omega
      have e2 : (1000 * digitVal c1 + 100 * digitVal c2 + 10 * digitVal c3 + digitVal c4)
          / 100 % 10 = digitVal c2 := by omega
      have e3 : (1000 * digitVal c1 + 100 * digitVal c2 + 10 * digitVal c3 + digitVal c4)
          / 10 % 10 = digitVal c3 := by omega
      have e4 : (1000 * digitVal c1 + 100 * digitVal c2 + 10 * digitVal c3 + digitVal c4)
          % 10 = digitVal c4 := by omega
      simp [yearChars, e1, e2, e3, e4, digitChar_digitVal h1, digitChar_digitVal h2,
        digitChar_digitVal h3, digitChar_digitVal h4]
    | [] => simp [dateOk] at h
    | [c1] => simp [dateOk] at h
    | [c1, c2] => simp [dateOk] at h
    | [c1, c2, c3] => simp [dateOk] at h
    | [c1, c2, c3, c4] => simp [dateOk] at h
  · rintro ⟨y, m, d, ms, ds, hy1, hy2, hm1, hm12, hd1, hdm, hms, hds, rfl⟩
    have ha : y / 1000 % 10 ≤ 9 := by omega
    have hb : y / 100 % 10 ≤ 9 := by omega
    have hc : y / 10 % 10 ≤ 9 := by omega
    have hd : y % 10 ≤ 9 := by omega
    have hy : 1000 * (y / 1000 % 10) + 100 * (y / 100 % 10)
        + 10 * (y / 10 % 10) + y % 10 = y := by omega
    have hmd : parseMD y (ms ++ '-' :: ds) = true :=
      (parseMD_iff _ _).mpr ⟨m, d, ms, ds, hms, hds, rfl,
        (calOk_iff _ _ _).mpr ⟨hy1, hm1, hm12, hd1, hdm⟩⟩
    simp only [yearChars, List.cons_append, List.nil_append, dateOk,
      isDig_digitChar ha, isDig_digitChar hb, isDig_digitChar hc, isDig_digitChar hd,
      digitVal_digitChar ha, digitVal_digitChar hb, digitVal_digitChar hc,
      digitVal_digitChar hd, hy, Bool.true_and]
    simp [hmd]

/-- C5 counterexample: the claim states that "2024-1-5" is rejected because
the parser requires strict two-digit field widths, but validate_date (via
strptime, whose month and day fields also match single digits) accepts it. -/
theorem validate_date_lenient_counterexample :
    (validate_date "2024-1-5").1 = true := by decide

/-- C5 amended: validate_date accepts a string if and only if it is a
four-digit year, a dash, a one- or two-digit month, a dash, and a day
written as one digit, two digits, or a space followed by one digit, the
whole forming a valid calendar date of year at least one, with no time
component or timezone and nothing trailing; month and day widths are not
fixed, so "2024-1-5" (and the space-padded "2024-01- 5") is accepted, and
every valid calendar date in these forms, past or future, is accepted. -/
theorem validate_date_strptime_characterization (s : String) :
    (validate_date s).1 = true ↔ dateSpecAccepts s := by
  rw [validate_date_fst, dateOk_iff]
  exact Iff.rfl
